import Mathlib

/-!
# Verification of FunctionDependencyAnalyzer against its specification

Shallow embedding of the analyzer's core data model and operations, translated
from the Python sources under `src/`, together with theorems settling the
frozen claims about the natural-language specification.

Conventions of the embedding:
* Python dictionaries keyed by strings become association lists
  (`List (String × _)`) with first-match lookup and last-write-wins insertion,
  matching CPython's insertion-ordered `dict`.
* Python `None`-returning functions become `Option`-valued functions; functions
  that may `raise` become `Except String`-valued functions, the string being
  the exception message from the source.
* The recursive-descent procedures of the source are embedded as structurally
  recursive functions; where the source recursion is graph-shaped (the DFS of
  `ModuleDependencyGraph.find_cycles`) an explicit fuel argument bounds the
  recursion, instantiated generously at every call site.
-/

namespace FDA

/-! ## Scope model: `pda/models/scope/node.py`

`ScopeNode` carries a `scope_type`, a `symbols` table, an `imports` table and
a parent reference.  A scope together with its chain of ancestors is embedded
as a nonempty list of frames, head = the scope itself, tail = parent chain.
-/

inductive ScopeType where
  | MODULE
  | CLASS
  | FUNCTION
  | LAMBDA
  | COMPREHENSION
deriving DecidableEq, Repr

/-- The payload of `pda.specification.Symbol` that name resolution observes:
the symbol's fully-qualified name.  (The defining AST node, origin path and
source span are opaque metadata never inspected by `lookup`.) -/
structure Symbol where
  fqn : String
deriving DecidableEq, Repr

/-- First-match lookup in an association list: `d[name]` guarded by
`name in d` for a Python dict. -/
def assocFind (table : List (String × Symbol)) (name : String) : Option Symbol :=
  match table with
  | [] => none
  | (k, v) :: rest => if k = name then some v else assocFind rest name

/-- One `ScopeNode`'s own data (scope type, symbol table, import table). -/
structure ScopeFrame where
  scope_type : ScopeType
  symbols : List (String × Symbol)
  imports : List (String × Symbol)
deriving Repr

namespace ScopeFrame

/-- `ScopeNode.lookup_local`: check this scope's `symbols`, then its
`imports`; never consult ancestors. -/
def lookup_local (s : ScopeFrame) (name : String) : Option Symbol :=
  match assocFind s.symbols name with
  | some symbol => some symbol
  | none =>
    match assocFind s.imports name with
    | some symbol => some symbol
    | none => none

end ScopeFrame

/-- `ScopeNode.lookup` on a scope given with its ancestor chain
(`chain = self :: parent :: grandparent :: …`; `[]` stands for a `None`
parent reference).  Mirrors the source: local lookup first; if the scope is a
`FUNCTION` whose immediate parent is a `CLASS`, skip that class and delegate
to the grandparent (`None` grandparent resolves to nothing); otherwise
delegate to the parent. -/
def scopeLookup : List ScopeFrame → String → Option Symbol
  | [], _ => none
  | s :: parents, name =>
    (s.lookup_local name).orElse (fun _ =>
      match parents with
      | [] => none
      | parent :: grandparents =>
        if s.scope_type = ScopeType.FUNCTION ∧ parent.scope_type = ScopeType.CLASS then
          match grandparents with
          | [] => none
          | _ :: _ => scopeLookup grandparents name
        else
          scopeLookup (parent :: grandparents) name)

/-- `ScopeNode.lookup_nonlocal`: walk enclosing scopes, skipping `MODULE` and
`CLASS` scopes entirely, returning the first local match in an enclosing
scope. -/
def scopeLookupNonlocal : List ScopeFrame → String → Option Symbol
  | [], _ => none
  | _ :: parents, name => go parents name
where
  go : List ScopeFrame → String → Option Symbol
  | [], _ => none
  | current :: rest, name =>
    if current.scope_type = ScopeType.MODULE ∨ current.scope_type = ScopeType.CLASS then
      go rest name
    else
      match current.lookup_local name with
      | some symbol => some symbol
      | none => go rest name

end FDA

open FDA

/-- **C6.** For a `FUNCTION` scope whose immediate parent is a `CLASS` scope,
`lookup` never consults that class scope's tables: after a failed local
lookup it delegates directly to the grandparent chain, and it resolves to
nothing when the class scope is parentless. -/
theorem lookup_function_skips_class_parent
    (f c : ScopeFrame) (rest : List ScopeFrame) (name : String)
    (hf : f.scope_type = ScopeType.FUNCTION)
    (hc : c.scope_type = ScopeType.CLASS) :
    scopeLookup (f :: c :: rest) name =
      (f.lookup_local name).orElse (fun _ => scopeLookup rest name) := by
  cases hloc : f.lookup_local name with
  | some symbol => simp [scopeLookup, hloc, Option.orElse]
  | none =>
    cases rest with
    | nil => simp [scopeLookup, hloc, hf, hc, Option.orElse]
    | cons g gs => simp [scopeLookup, hloc, hf, hc, Option.orElse]

/-- Witness for C6: a method scope under a parentless class scope does not see
the class-body binding `x` even though the class table holds one. -/
theorem lookup_function_skips_class_parent_witness :
    scopeLookup [⟨ScopeType.FUNCTION, [], []⟩,
                 ⟨ScopeType.CLASS, [("x", ⟨"M.C.x"⟩)], []⟩] "x" = none := by
  have h := lookup_function_skips_class_parent
    ⟨ScopeType.FUNCTION, [], []⟩ ⟨ScopeType.CLASS, [("x", ⟨"M.C.x"⟩)], []⟩ [] "x" rfl rfl
  rw [h]; rfl

/-- **C10.** The class-skipping rule of `lookup` applies only to `FUNCTION`
scopes: a `LAMBDA` or `COMPREHENSION` scope nested directly in a `CLASS` scope
delegates to that class scope, so a class-body binding is consulted before
walking further up. -/
theorem lookup_lambda_comprehension_sees_class_parent
    (l c : ScopeFrame) (rest : List ScopeFrame) (name : String)
    (hl : l.scope_type = ScopeType.LAMBDA ∨ l.scope_type = ScopeType.COMPREHENSION)
    (hc : c.scope_type = ScopeType.CLASS)
    (hmiss : l.lookup_local name = none) :
    scopeLookup (l :: c :: rest) name = scopeLookup (c :: rest) name := by
  have hne : ¬ l.scope_type = ScopeType.FUNCTION := by
    rcases hl with h | h <;> simp [h]
  simp [scopeLookup, hmiss, hne]

/-- Witness for C10: a lambda nested directly in a class body resolves the
class-body binding `x`. -/
theorem lookup_lambda_comprehension_sees_class_parent_witness :
    scopeLookup [⟨ScopeType.LAMBDA, [], []⟩,
                 ⟨ScopeType.CLASS, [("x", ⟨"M.C.x"⟩)], []⟩] "x" = some ⟨"M.C.x"⟩ := by
  have h := lookup_lambda_comprehension_sees_class_parent
    ⟨ScopeType.LAMBDA, [], []⟩ ⟨ScopeType.CLASS, [("x", ⟨"M.C.x"⟩)], []⟩ [] "x"
    (Or.inl rfl) rfl rfl
  rw [h]; rfl

namespace FDA

/-! ## Import scope flags: `pda/specification/imports/scope.py`

`ImportScope` is an `IntFlag` with `auto()` values; embedded as a `Nat`
bitmask with the flag constants in declaration order. -/

namespace ImportScope

def NONE : Nat := 0
def IF : Nat := 1
def ELIF : Nat := 2
def ELSE : Nat := 4
def CASE : Nat := 8
def DEFAULT : Nat := 16
def TRY : Nat := 32
def EXCEPT : Nat := 64
def TRY_ELSE : Nat := 128
def FINALLY : Nat := 256
def LOOP : Nat := 512
def WITH : Nat := 1024
def CLASS : Nat := 2048
def FUNCTION : Nat := 4096
def DECORATOR : Nat := 8192
def TYPE_CHECKING : Nat := 16384
def MAIN : Nat := 32768

def IF_ELSE : Nat := IF ||| ELSE
def ERROR_HANDLING : Nat := TRY ||| EXCEPT ||| TRY_ELSE ||| FINALLY
def MATCH_CASE : Nat := CASE ||| DEFAULT
def BRANCH : Nat := IF_ELSE ||| MATCH_CASE ||| ERROR_HANDLING
def DEFINITION : Nat := CLASS ||| FUNCTION

/-- `ImportScope.validate`: fatal `ValueError` when a special flag lacks its
required co-occurring flag.  (`self & X` is truthy iff the masked value is
nonzero.) -/
def validate (s : Nat) : Except String Unit :=
  if s &&& TYPE_CHECKING ≠ 0 ∧ s &&& IF_ELSE = 0 then
    .error "TYPE_CHECKING flag must be combined with IF or ELSE"
  else if s &&& MAIN ≠ 0 ∧ s &&& IF_ELSE = 0 then
    .error "MAIN flag must be combined with IF or ELSE"
  else if s &&& DEFAULT ≠ 0 ∧ s &&& CASE = 0 then
    .error "DEFAULT flag must be combined with CASE"
  else if s &&& DECORATOR ≠ 0 ∧ s &&& FUNCTION = 0 then
    .error "DECORATOR flag must be combined with FUNCTION"
  else
    .ok ()

end ImportScope

/-! ## Python expressions, as consumed by the classifier's detectors

Mini expression AST covering exactly the node kinds inspected by
`pda/analyzer/imports/parser.py`, `pda/analyzer/imports/special/main.py` and
`pda/analyzer/imports/type_checking.py`: `Name`, `Attribute`, `Constant`,
`UnaryOp(Not)`, `BoolOp`, `Compare`, and `Call`. -/

inductive CmpOp where
  | Eq | NotEq | Is | IsNot | Lt | LtE | Gt | GtE
deriving DecidableEq, Repr

inductive BoolOpKind where
  | bAnd | bOr
deriving DecidableEq, Repr

/-- Constant literal values relevant to the detectors. -/
inductive PyConst where
  | str (s : String)
  | bool (b : Bool)
  | int (n : Int)
  | noneConst
deriving DecidableEq, Repr

inductive Expr where
  | name (id : String)
  | attribute (value : Expr) (attr : String)
  | constant (v : PyConst)
  | unaryNot (operand : Expr)
  | boolOp (op : BoolOpKind) (values : List Expr)
  | compare (left : Expr) (ops : List CmpOp) (comparators : List Expr)
  | call (funcName : String) (args : List Expr)
  | otherExpr
deriving Repr

/-! ## Classifier detectors internal to `ImportStatementParser`
(`pda/analyzer/imports/parser.py`, lines 141–176) -/

namespace Parser

/-- `ImportStatementParser._references_type_checking` (the `BoolOp` case is
Python's short-circuiting `any(... for value in node.values)`). -/
def references_type_checking : Expr → Bool
  | .name id => id = "TYPE_CHECKING"
  | .attribute _ attr => attr = "TYPE_CHECKING"
  | .boolOp _ values => anyValue values
  | _ => false
where
  anyValue : List Expr → Bool
  | [] => false
  | v :: rest => references_type_checking v || anyValue rest

/-- `ImportStatementParser._is_type_checking_condition`. -/
def is_type_checking_condition (test : Expr) (negated : Bool) : Bool :=
  match test with
  | .unaryNot operand => negated && references_type_checking operand
  | _ => !negated && references_type_checking test

/-- `ImportStatementParser._checks_name_main` (also the body of
`_is_main_condition`, which merely delegates to it). -/
def checks_name_main : Expr → Bool
  | .compare left _ comparators =>
    (match left with
     | .name id => id = "__name__"
     | _ => false)
    && comparators.any (fun comp =>
         match comp with
         | .constant (.str s) => s = "__main__"
         | _ => false)
  | .unaryNot operand => checks_name_main operand
  | .boolOp _ values => anyValue values
  | _ => false
where
  anyValue : List Expr → Bool
  | [] => false
  | v :: rest => checks_name_main v || anyValue rest

end Parser

end FDA

namespace FDA

/-! ## The ancestor walk of `ImportStatementParser._determine_scope`

`_determine_scope` walks the import node's ancestor chain; for each ancestor
whose AST kind it recognizes it accumulates flags computed by a handler.  The
handlers observe the ancestor's own fields plus, via `has_ancestor_of_id`,
*which block of the ancestor the import node sits under*.  An ancestor is
embedded as the handler-observable record of that information: the constructor
says the AST kind, the `Bool` fields are the `has_ancestor_of_id` results for
the respective blocks (in a tree these are mutually exclusive and true exactly
when the import is nested in that block's statement list). -/

/-- `ast.pattern` as inspected by `_handle_match_scope`: the handler only asks
whether a case's pattern is `MatchAs` with `pattern is None` (the irrefutable
wildcard `case _:`). -/
inductive MatchPat where
  | matchAs (pattern : Option MatchPat)
  | otherPat
deriving Repr

/-- One recognized ancestor of the import node, together with the
`has_ancestor_of_id` observations its handler makes. -/
inductive Anc where
  /-- An `ast.If` ancestor: its `test`, and whether the import node lies in
  `body` / in `orelse`. -/
  | anIf (test : Expr) (inBody : Bool) (inOrelse : Bool)
  /-- An `ast.Try` ancestor: whether the import node lies in `finalbody`, in
  some handler's body, in `orelse`, in `body`. -/
  | anTry (inFinalbody : Bool) (inHandlers : Bool) (inOrelse : Bool) (inBody : Bool)
  /-- An `ast.Match` ancestor: its cases' patterns, each with whether the
  imported node lies in that case's body. -/
  | anMatch (cases : List (MatchPat × Bool))
  /-- The loop and comprehension kinds: `ast.For`, `ast.While`,
  `ast.ListComp`, `ast.SetComp`, `ast.DictComp`, `ast.GeneratorExp`. -/
  | anLoop
  /-- `ast.With`. -/
  | anWith
  /-- An `ast.FunctionDef`/`ast.AsyncFunctionDef` ancestor: whether the import
  node lies in its `decorator_list`. -/
  | anFunction (inDecoratorList : Bool)
  /-- `ast.ClassDef`. -/
  | anClass
deriving Repr

namespace Parser

open ImportScope

/-- `ImportStatementParser._handle_if_scope`.  Raises `ValueError` when the
node is a child of the `If` yet in neither of its blocks. -/
def handle_if_scope (test : Expr) (inBody inOrelse : Bool) : Except String Nat :=
  let scope :=
    if inBody then
      let scope := NONE ||| IF
      if is_type_checking_condition test false then scope ||| TYPE_CHECKING
      else if checks_name_main test then scope ||| MAIN
      else scope
    else if inOrelse then
      let scope := NONE ||| ELSE
      if is_type_checking_condition test true then scope ||| TYPE_CHECKING
      else scope
    else NONE
  if !inBody && !inOrelse then
    .error "Import node is child of If but not in body or orelse"
  else
    .ok scope

/-- `ImportStatementParser._handle_try_scope`: the first matching block wins,
in source order `finalbody`, handlers, `orelse`, `body`; `ValueError` when
none matches. -/
def handle_try_scope (inFinalbody inHandlers inOrelse inBody : Bool) :
    Except String Nat :=
  if inFinalbody then .ok FINALLY
  else if inHandlers then .ok EXCEPT
  else if inOrelse then .ok TRY_ELSE
  else if inBody then .ok TRY
  else .error "Import node is child of Try but not in any of its blocks"

/-- `ImportStatementParser._handle_match_scope`: the first case whose body
contains the import node decides; a `MatchAs` pattern with `pattern is None`
yields `DEFAULT`, any other pattern `CASE`; no matching case yields `NONE`. -/
def handle_match_scope : List (MatchPat × Bool) → Nat
  | [] => NONE
  | (pat, inCaseBody) :: rest =>
    if inCaseBody then
      match pat with
      | .matchAs none => DEFAULT
      | _ => CASE
    else handle_match_scope rest

/-- `ImportStatementParser._handle_function_scope`. -/
def handle_function_scope (inDecoratorList : Bool) : Nat :=
  if inDecoratorList then FUNCTION ||| DECORATOR else FUNCTION

/-- Flags contributed by one recognized ancestor (the `match current.ast`
dispatch inside `_determine_scope`). -/
def handle_ancestor : Anc → Except String Nat
  | .anIf test inBody inOrelse => handle_if_scope test inBody inOrelse
  | .anTry f h o b => handle_try_scope f h o b
  | .anMatch cases => .ok (handle_match_scope cases)
  | .anLoop => .ok LOOP
  | .anWith => .ok WITH
  | .anFunction d => .ok (handle_function_scope d)
  | .anClass => .ok CLASS

/-- `ImportStatementParser._determine_scope`: walk the ancestor chain
(innermost first) accumulating flags with `|=`, then `scope.validate()`;
the validated scope is returned. -/
def determine_scope (ancestors : List Anc) : Except String Nat := do
  let scope ← go ancestors NONE
  ImportScope.validate scope
  return scope
where
  go : List Anc → Nat → Except String Nat
  | [], scope => .ok scope
  | a :: rest, scope => do
    let flags ← handle_ancestor a
    go rest (scope ||| flags)

end Parser

end FDA

open FDA.Parser in
/-- **C3 (counterexample).** The claim asserts that an import in the paired
`else:` branch of an `if TYPE_CHECKING:` conditional classifies with the
TypeChecking flag together with the Else flag.  On the code this is false:
for the program `if TYPE_CHECKING:\n    pass\nelse:\n    import x` the import's
only recognized ancestor is the `If` with test `TYPE_CHECKING` and the import
in `orelse`, and classification yields exactly `ELSE`, whose `TYPE_CHECKING`
bit is clear. -/
theorem type_checking_else_branch_counterexample :
    determine_scope [Anc.anIf (Expr.name "TYPE_CHECKING") false true] =
      .ok ImportScope.ELSE ∧
    ImportScope.ELSE &&& ImportScope.TYPE_CHECKING = 0 := by
  constructor <;> rfl

open FDA.Parser in
/-- **C3 (amended).** An import nested in the body of `if TYPE_CHECKING:`
classifies with TypeChecking together with the then-branch flag; an import in
the paired `else:` branch classifies with the Else flag alone.  TypeChecking
accompanies Else only when the `If`'s test is an explicit negation of a
TYPE_CHECKING reference (`if not TYPE_CHECKING: ... else: import x`). -/
theorem type_checking_if_classification :
    determine_scope [Anc.anIf (Expr.name "TYPE_CHECKING") true false] =
      .ok (ImportScope.IF ||| ImportScope.TYPE_CHECKING) ∧
    determine_scope [Anc.anIf (Expr.name "TYPE_CHECKING") false true] =
      .ok ImportScope.ELSE ∧
    determine_scope [Anc.anIf (Expr.unaryNot (Expr.name "TYPE_CHECKING")) false true] =
      .ok (ImportScope.ELSE ||| ImportScope.TYPE_CHECKING) ∧
    determine_scope [Anc.anIf (Expr.unaryNot (Expr.name "TYPE_CHECKING")) true false] =
      .ok ImportScope.IF := by
  refine ⟨rfl, rfl, rfl, rfl⟩

namespace FDA

/-! ## The tested main-guard detector: `pda/analyzer/imports/special/main.py`

These functions are the repository's dedicated main-guard recognizer (pinned
by `tests/pda/analyzer/imports/special/test_main.py`).  They need a minimal
statement type only for the `orelse` chain of an `ast.If` (an `elif` is an
`orelse` holding exactly one nested `If`). -/

inductive Stmt where
  | sif (test : Expr) (body : List Stmt) (orelse : List Stmt)
  | simportStmt (module : String)
  | spass
deriving Repr

namespace MainGuard

/-- `_is_name_dunder_name`. -/
def is_name_dunder_name : Expr → Bool
  | .name id => id = "__name__"
  | _ => false

/-- `_is_main_string`. -/
def is_main_string : Expr → Bool
  | .constant (.str s) => s = "__main__"
  | _ => false

/-- `_is_main_guard_comparison` (callers guard with `isinstance(_, ast.Compare)`;
any other node yields `False`). -/
def is_main_guard_comparison : Expr → Bool
  | .compare left ops comparators =>
    match ops, comparators with
    | [op], [comparator] =>
      (match op with
       | .Eq =>
         (is_name_dunder_name left && is_main_string comparator) ||
         (is_main_string left && is_name_dunder_name comparator)
       | _ => false)
    | _, _ => false
  | _ => false

/-- `_contains_main_guard_in_and_chain`. -/
def contains_main_guard_in_and_chain (values : List Expr) : Bool :=
  values.any (fun value =>
    match value with
    | .compare _ _ _ => is_main_guard_comparison value
    | _ => false)

/-- `_contains_main_guard_in_and`. -/
def contains_main_guard_in_and : Expr → Bool
  | .compare left ops comparators => is_main_guard_comparison (.compare left ops comparators)
  | .boolOp .bAnd values => contains_main_guard_in_and_chain values
  | _ => false

/-- `_is_negated_main_guard_comparison`: same shapes with `ast.NotEq`. -/
def is_negated_main_guard_comparison : Expr → Bool
  | .compare left ops comparators =>
    match ops, comparators with
    | [op], [comparator] =>
      (match op with
       | .NotEq =>
         (is_name_dunder_name left && is_main_string comparator) ||
         (is_main_string left && is_name_dunder_name comparator)
       | _ => false)
    | _, _ => false
  | _ => false

/-- `_is_negated_main_guard`: `not (__name__ == "__main__")` or
`__name__ != "__main__"`. -/
def is_negated_main_guard : Expr → Bool
  | .unaryNot operand =>
    (match operand with
     | .compare _ _ _ => is_main_guard_comparison operand
     | _ => false)
  | .compare left ops comparators =>
    is_negated_main_guard_comparison (.compare left ops comparators)
  | _ => false

/-- `_contains_negated_main_guard_in_or_chain`. -/
def contains_negated_main_guard_in_or_chain (values : List Expr) : Bool :=
  values.any is_negated_main_guard

/-- `_contains_main_guard_negation`. -/
def contains_main_guard_negation (node : Expr) : Bool :=
  is_negated_main_guard node ||
  (match node with
   | .boolOp .bOr values => contains_negated_main_guard_in_or_chain values
   | _ => false)

/-- `_is_or_clause`. -/
def is_or_clause : Expr → Bool
  | .boolOp .bOr _ => true
  | _ => false

/-- `_is_and_clause`. -/
def is_and_clause : Expr → Bool
  | .boolOp .bAnd _ => true
  | _ => false

/-- `_any_branch_excludes_main_guard`: walk the `if`/`elif` chain
(`_get_next_elif`: an `orelse` holding exactly one `If`), returning `True`
when some branch's test contains a main-guard negation. -/
def any_branch_excludes_main_guard : Stmt → Bool
  | .sif test _ orelse =>
    contains_main_guard_negation test ||
    (match orelse with
     | [next] =>
       match next with
       | .sif _ _ _ => any_branch_excludes_main_guard next
       | _ => false
     | _ => false)
  | _ => false

/-- `is_main_guard_only` (callers pass an `ast.If`). -/
def is_main_guard_only (ifStmt : Stmt) (in_else_branch : Bool) : Bool :=
  if in_else_branch then
    any_branch_excludes_main_guard ifStmt
  else
    match ifStmt with
    | .sif test _ _ =>
      if (match test with
          | .compare _ _ _ => is_main_guard_comparison test
          | _ => false) then true
      else if is_and_clause test then contains_main_guard_in_and test
      else if is_or_clause test then false
      else false
    | _ => false

end MainGuard

end FDA

open FDA.Parser FDA.MainGuard in
/-- **C4 (code bug).** The classification pipeline's main-guard recognition
(`_checks_name_main`) diverges from the repository's dedicated, test-pinned
main-guard detector (`is_main_guard_only`) on both points the claim makes:
* operand order: for `if "__main__" == __name__:` the pipeline classifies the
  then-branch import as `IF` with the `MAIN` bit clear, while the detector
  recognizes the swapped comparison (its tests pin `swapped_comparison → True`);
* logical consistency under negation: for `if __name__ != "__main__":` the
  pipeline puts `MAIN` on the then-branch — the branch that runs precisely
  when the file is *not* the entry point — while the detector returns `False`
  there (its tests pin `direct_not_main_guard → False`). -/
theorem main_guard_classification_code_bug :
    determine_scope
        [Anc.anIf (Expr.compare (Expr.constant (PyConst.str "__main__"))
            [CmpOp.Eq] [Expr.name "__name__"]) true false] =
      .ok ImportScope.IF ∧
    ImportScope.IF &&& ImportScope.MAIN = 0 ∧
    is_main_guard_only
        (Stmt.sif (Expr.compare (Expr.constant (PyConst.str "__main__"))
            [CmpOp.Eq] [Expr.name "__name__"]) [Stmt.simportStmt "os"] []) false = true ∧
    determine_scope
        [Anc.anIf (Expr.compare (Expr.name "__name__")
            [CmpOp.NotEq] [Expr.constant (PyConst.str "__main__")]) true false] =
      .ok (ImportScope.IF ||| ImportScope.MAIN) ∧
    is_main_guard_only
        (Stmt.sif (Expr.compare (Expr.name "__name__")
            [CmpOp.NotEq] [Expr.constant (PyConst.str "__main__")])
          [Stmt.simportStmt "os"] []) false = false := by
  refine ⟨rfl, rfl, rfl, rfl, rfl⟩

open FDA.Parser in
/-- **C5 (code bug).** An import in the body of a match statement's
irrefutable wildcard case (`match x:\n    case _:\n        import os`) does
not classify successfully: `_handle_match_scope` returns `DEFAULT` *without*
the `CASE` flag required by `ImportScope.validate`, so classification always
dies with the fatal `ValueError` instead of producing `DEFAULT | CASE`. -/
theorem wildcard_case_classification_fatal :
    Parser.handle_match_scope [(MatchPat.matchAs none, true)] = ImportScope.DEFAULT ∧
    ImportScope.DEFAULT &&& ImportScope.CASE = 0 ∧
    determine_scope [Anc.anMatch [(MatchPat.matchAs none, true)]] =
      .error "DEFAULT flag must be combined with CASE" := by
  refine ⟨rfl, rfl, rfl⟩

namespace FDA

/-! ## `ImportStatement` construction
(`pda/specification/imports/statement.py` + `pda/specification/base.py`
versus `ImportStatementParser._create_import_statements`) -/

/-- The fields declared on `pda.specification.ImportStatement`: `origin`,
`span`, `path`, and `scopes` (a list, with `default_factory=list`). -/
def importStatementFields : List String := ["origin", "span", "path", "scopes"]

/-- The fields without a default (`Field(...)`): all but `scopes`. -/
def importStatementRequired : List String := ["origin", "span", "path"]

/-- Modelled library semantics: pydantic `BaseModel` construction under
`Specification.model_config` (`pda/specification/base.py`, `extra="forbid"`):
a keyword argument that matches no declared field raises a `ValidationError`;
a missing required field likewise; otherwise construction succeeds. -/
def pydanticInit (fields required provided : List String) : Except String Unit :=
  match provided.filter (fun k => !fields.contains k) with
  | [] =>
    if required.all provided.contains then .ok ()
    else .error "ValidationError: missing required field"
  | k :: _ => .error ("ValidationError: unexpected keyword argument: " ++ k)

/-- The `ImportStatement` record (`scopes` defaults to `[]` via
`default_factory=list` when not provided). -/
structure ImportStatement where
  origin : String
  span : Nat × Nat
  path : String
  scopes : List Nat
deriving Repr

/-- `ImportStatementParser._create_import_statements`: compute the span and
the classified scope once, then construct one `ImportStatement` per
extracted path, passing the keywords `origin=`, `span=`, `path=` and —
against the model's field list — `scope=`.  `ImportPath.from_ast` lives in
`pda/specification/imports/path.py`, which is absent from `src/`; the list of
extracted paths is therefore a parameter here (only its length matters). -/
def create_import_statements (origin : String) (span : Nat × Nat)
    (ancestors : List Anc) (import_paths : List String) :
    Except String (List ImportStatement) := do
  let _scope ← Parser.determine_scope ancestors
  import_paths.mapM (fun import_path => do
    pydanticInit importStatementFields importStatementRequired
      ["origin", "span", "path", "scope"]
    .ok (⟨origin, span, import_path, []⟩ : ImportStatement))

end FDA

/-- **C2 (code bug).** Whenever classification of an import node succeeds and
the statement extracts at least one import path, construction of the
`ImportStatement` values fails: the parser passes the keyword `scope=`, but the
model declares the field `scopes` and forbids extras, so every classified
statement dies with a `ValidationError` instead of yielding values carrying
the classification. -/
theorem import_statement_construction_always_fails
    (origin : String) (span : Nat × Nat) (ancestors : List Anc)
    (paths : List String) (scope : Nat)
    (hok : Parser.determine_scope ancestors = .ok scope)
    (hne : paths ≠ []) :
    create_import_statements origin span ancestors paths =
      .error "ValidationError: unexpected keyword argument: scope" := by
  cases paths with
  | nil => exact absurd rfl hne
  | cons p rest =>
    simp [create_import_statements, hok, pydanticInit, importStatementFields,
      List.mapM, List.mapM.loop, Except.bind, bind, pure]

/-- Witness for C2: the file `a.py` containing the single statement
`import os` (one extracted path, top-level, classification `NONE`). -/
theorem import_statement_construction_always_fails_witness :
    create_import_statements "a.py" (1, 1) [] ["os"] =
      .error "ValidationError: unexpected keyword argument: scope" :=
  import_statement_construction_always_fails "a.py" (1, 1) [] ["os"]
    ImportScope.NONE rfl (by simp)


namespace FDA

/-! ## The symbol collector: `pda/analyzer/scope/collector.py`

Mini Python AST covering the node kinds the collector's scope/definition
logic dispatches on.  Node identity (the keys of `_symbols_by_node`) is the
node's index path from the forest root.  Children are the statement bodies;
child nodes that can hold no binding and introduce no scope (bare
expressions, `arguments`/`arg` nodes, decorator expressions) are omitted —
visiting them is a no-op in the source.  Of the collector's dispatch arms,
those for function definitions, class definitions and assignments are
embedded; the remaining binding kinds (walrus, loop/with targets, exception
handlers, match patterns) are not touched by the claims settled here. -/

/-- `ast.arguments`: the five parameter groups of a function definition. -/
structure Arguments where
  posonlyargs : List String
  args : List String
  vararg : Option String
  kwonlyargs : List String
  kwarg : Option String
deriving Repr

/-- Assignment targets as destructured by `_collect_names_from_target`. -/
inductive Target where
  | tName (id : String)
  | tTuple (elts : List Target)
  | tListT (elts : List Target)
  | tAttribute
  | tSubscript
deriving Repr

inductive PyAst where
  | module (body : List PyAst)
  | functionDef (name : String) (arguments : Arguments) (body : List PyAst)
  | asyncFunctionDef (name : String) (arguments : Arguments) (body : List PyAst)
  | classDef (name : String) (body : List PyAst)
  | lambdaE (arguments : Arguments) (body : List PyAst)
  | listComp (body : List PyAst)
  | setComp (body : List PyAst)
  | dictComp (body : List PyAst)
  | generatorExp (body : List PyAst)
  | assign (targets : List Target)
  | passStmt
deriving Repr

namespace Collector

/-- `SymbolCollector._is_scope_defining`: `ast.Module`, `ast.ClassDef`,
`ast.FunctionDef`, `ast.AsyncFunctionDef`, `ast.Lambda` and the four
comprehension kinds. -/
def is_scope_defining : PyAst → Bool
  | .module _ => true
  | .classDef _ _ => true
  | .functionDef _ _ _ => true
  | .asyncFunctionDef _ _ _ => true
  | .lambdaE _ _ => true
  | .listComp _ => true
  | .setComp _ => true
  | .dictComp _ => true
  | .generatorExp _ => true
  | _ => false

/-- The children sequence of a node (`ast.iter_child_nodes`, restricted as
described above). -/
def children : PyAst → List PyAst
  | .module body => body
  | .functionDef _ _ body => body
  | .asyncFunctionDef _ _ body => body
  | .classDef _ body => body
  | .lambdaE _ body => body
  | .listComp body => body
  | .setComp body => body
  | .dictComp body => body
  | .generatorExp body => body
  | .assign _ => []
  | .passStmt => []

/-- `hasattr(self.ast, "name")` / `self.ast.name`, as read by `ASTNode.fqn`. -/
def nodeName? : PyAst → Option String
  | .functionDef name _ _ => some name
  | .asyncFunctionDef name _ _ => some name
  | .classDef name _ => some name
  | _ => none

/-- `ASTNode.fqn` of a node whose chain of named ancestors dots to `pfx`:
nodes with a `name` attribute append it, all others inherit the parent
prefix. -/
def nodeFqn (pfx : String) (node : PyAst) : String :=
  match nodeName? node with
  | some name => if pfx ≠ "" then pfx ++ "." ++ name else name
  | none => pfx

/-- Node identity: index path from the forest root. -/
abbrev NodeKey := List Nat

/-- `_symbols_by_node`: scope-defining node ↦ its symbol table. -/
abbrev SymTabs := List (NodeKey × List (String × Symbol))

def tabsHasKey (tabs : SymTabs) (k : NodeKey) : Bool :=
  tabs.any (fun e => e.1 = k)

/-- `if key not in self._symbols_by_node: self._symbols_by_node[key] = {}` -/
def tabsEnsure (tabs : SymTabs) (k : NodeKey) : SymTabs :=
  if tabsHasKey tabs k then tabs else tabs ++ [(k, [])]

/-- `d[name] = symbol` on one table: last write wins, insertion order kept. -/
def tableSet (t : List (String × Symbol)) (name : String) (sym : Symbol) :
    List (String × Symbol) :=
  if t.any (fun e => e.1 = name) then
    t.map (fun e => if e.1 = name then (name, sym) else e)
  else
    t ++ [(name, sym)]

/-- `self._symbols_by_node[scope_node][name] = symbol`, with the
`scope_node not in self._symbols_by_node` guard of `_define_symbol`. -/
def tabsInsert (tabs : SymTabs) (k : NodeKey) (name : String) (sym : Symbol) :
    SymTabs :=
  (tabsEnsure tabs k).map (fun e => if e.1 = k then (k, tableSet e.2 name sym) else e)

/-- `SymbolCollector._define_symbol`: build the FQN from the defining
`ast_node`'s fqn prefix and record the symbol in the owning scope's table.
(The `origin`/`span` metadata of a `Symbol` is not inspected by any claim.) -/
def define_symbol (name : String) (fqnPrefix : String) (scopeKey : NodeKey)
    (tabs : SymTabs) : SymTabs :=
  let fqn := if fqnPrefix ≠ "" then fqnPrefix ++ "." ++ name else name
  tabsInsert tabs scopeKey name ⟨fqn⟩

/-- `SymbolCollector._collect_parameters`: positional-only, positional,
var-positional, keyword-only, var-keyword parameters, in that order, each
recorded in the function's own scope with the function's fqn as prefix. -/
def collect_parameters (arguments : Arguments) (fnKey : NodeKey) (fnFqn : String)
    (tabs : SymTabs) : SymTabs :=
  let all_args :=
    arguments.posonlyargs ++ arguments.args ++
    (match arguments.vararg with | some a => [a] | none => []) ++
    arguments.kwonlyargs ++
    (match arguments.kwarg with | some a => [a] | none => [])
  all_args.foldl (fun tabs a => define_symbol a fnFqn fnKey tabs) tabs

/-- `SymbolCollector._collect_function`: record the function's name in the
enclosing scope (the function node itself is the FQN-defining `ast_node`),
then its parameters in the function's own scope. -/
def collect_function (name : String) (arguments : Arguments) (node : PyAst)
    (nodeKey : NodeKey) (nodeFqnStr : String) (scopeKey : NodeKey)
    (tabs : SymTabs) : SymTabs :=
  let tabs := define_symbol name nodeFqnStr scopeKey tabs
  if tabsHasKey tabs nodeKey || is_scope_defining node then
    let tabs := tabsEnsure tabs nodeKey
    collect_parameters arguments nodeKey nodeFqnStr tabs
  else
    tabs

/-- `SymbolCollector._collect_class`. -/
def collect_class (name : String) (nodeFqnStr : String) (scopeKey : NodeKey)
    (tabs : SymTabs) : SymTabs :=
  define_symbol name nodeFqnStr scopeKey tabs

/-- `SymbolCollector._collect_names_from_target`: destructure `Name`,
`Tuple` and `List` targets; attribute/subscript targets bind nothing. -/
def collect_names_from_target (fqnPrefix : String) (scopeKey : NodeKey) :
    Target → SymTabs → SymTabs
  | .tName id, tabs => define_symbol id fqnPrefix scopeKey tabs
  | .tTuple elts, tabs => goElts elts tabs
  | .tListT elts, tabs => goElts elts tabs
  | .tAttribute, tabs => tabs
  | .tSubscript, tabs => tabs
where
  goElts : List Target → SymTabs → SymTabs
  | [], tabs => tabs
  | t :: rest, tabs => goElts rest (collect_names_from_target fqnPrefix scopeKey t tabs)

/-- `SymbolCollector._collect_assignment` on an `ast.Assign`'s `targets`. -/
def collect_assignment (targets : List Target) (fqnPrefix : String)
    (scopeKey : NodeKey) (tabs : SymTabs) : SymTabs :=
  targets.foldl (fun tabs t => collect_names_from_target fqnPrefix scopeKey t tabs) tabs

theorem sizeOf_children_le (node : PyAst) : sizeOf (children node) ≤ sizeOf node := by
  cases node <;> simp [children] <;> omega

theorem one_le_sizeOf_pyast_list (l : List PyAst) : 1 ≤ sizeOf l := by
  cases l <;> simp <;> omega

mutual

/-- `SymbolCollector._collect_in_scope`: ensure the scope's table exists,
visit the scope body, then recurse into scope-defining children. -/
def collect_in_scope (node : PyAst) (path : NodeKey) (pfx : String)
    (tabs : SymTabs) : SymTabs :=
  let tabs := tabsEnsure tabs path
  let tabs := visit_scope_body (children node) 0 path (nodeFqn pfx node) tabs
  scope_children (children node) 0 path (nodeFqn pfx node) tabs
termination_by sizeOf node + 1
decreasing_by
  all_goals simp_wf
  all_goals (have h := sizeOf_children_le node; omega)

/-- The `for child in scope_node.children: if self._is_scope_defining(child)`
loop at the end of `_collect_in_scope`. -/
def scope_children (cs : List PyAst) (i : Nat) (path : NodeKey) (pfx : String)
    (tabs : SymTabs) : SymTabs :=
  match cs with
  | [] => tabs
  | c :: rest =>
    let tabs := if is_scope_defining c then collect_in_scope c (path ++ [i]) pfx tabs else tabs
    scope_children rest (i + 1) path pfx tabs
termination_by sizeOf cs
decreasing_by
  all_goals simp_wf
  all_goals (have h := one_le_sizeOf_pyast_list rest; simp [List.cons.sizeOf_spec]; omega)

/-- `SymbolCollector._visit_scope_body`: visit every child of the scope node
(the visit itself bails out on scope-defining nodes). -/
def visit_scope_body (cs : List PyAst) (i : Nat) (scopePath : NodeKey)
    (scopePfx : String) (tabs : SymTabs) : SymTabs :=
  match cs with
  | [] => tabs
  | c :: rest =>
    let tabs := visit_node c (scopePath ++ [i]) scopePfx scopePath tabs
    visit_scope_body rest (i + 1) scopePath scopePfx tabs
termination_by sizeOf cs
decreasing_by
  all_goals simp_wf
  all_goals (have h := one_le_sizeOf_pyast_list rest; simp [List.cons.sizeOf_spec]; omega)

/-- `SymbolCollector._visit_node`: **returns immediately when the node is
scope-defining** (which `ast.FunctionDef`, `ast.AsyncFunctionDef` and
`ast.ClassDef` all are — so the first three dispatch arms below are
unreachable); otherwise dispatch on the node kind and recurse into
non-scope-defining children. -/
def visit_node (node : PyAst) (path : NodeKey) (pfx : String)
    (scopePath : NodeKey) (tabs : SymTabs) : SymTabs :=
  if is_scope_defining node then tabs
  else
    let tabs :=
      match node with
      | .functionDef name arguments body =>
        collect_function name arguments (.functionDef name arguments body) path
          (nodeFqn pfx (.functionDef name arguments body)) scopePath tabs
      | .asyncFunctionDef name arguments body =>
        collect_function name arguments (.asyncFunctionDef name arguments body) path
          (nodeFqn pfx (.asyncFunctionDef name arguments body)) scopePath tabs
      | .classDef name body => collect_class name (nodeFqn pfx (.classDef name body)) scopePath tabs
      | .assign targets => collect_assignment targets (nodeFqn pfx node) scopePath tabs
      | _ => tabs
    visit_node_children (children node) 0 path (nodeFqn pfx node) scopePath tabs
termination_by sizeOf node + 1
decreasing_by
  all_goals simp_wf
  all_goals (have h := sizeOf_children_le node; omega)

/-- The `for child in node.children: if not self._is_scope_defining(child)`
loop at the end of `_visit_node`. -/
def visit_node_children (cs : List PyAst) (i : Nat) (path : NodeKey)
    (pfx : String) (scopePath : NodeKey) (tabs : SymTabs) : SymTabs :=
  match cs with
  | [] => tabs
  | c :: rest =>
    let tabs :=
      if !is_scope_defining c then visit_node c (path ++ [i]) pfx scopePath tabs else tabs
    visit_node_children rest (i + 1) path pfx scopePath tabs
termination_by sizeOf cs
decreasing_by
  all_goals simp_wf
  all_goals (have h := one_le_sizeOf_pyast_list rest; simp [List.cons.sizeOf_spec]; omega)

end

/-- `SymbolCollector.__call__`: collect over every forest root. -/
def collectSymbols (roots : List PyAst) : SymTabs :=
  go roots 0 []
where
  go : List PyAst → Nat → SymTabs → SymTabs
  | [], _, tabs => tabs
  | r :: rest, i, tabs => go rest (i + 1) (collect_in_scope r [i] "" tabs)

end Collector

end FDA

open FDA.Collector in
/-- **C1 (code bug).** `_visit_node` returns immediately on scope-defining
nodes, and `ast.FunctionDef`/`ast.AsyncFunctionDef`/`ast.ClassDef` are
scope-defining, so the `_collect_function`/`_collect_class` dispatch arms are
unreachable: for the module `def f(x):\n    pass` the collector leaves the
module's symbol table empty (no `f`) and the function's own table empty (no
parameter `x`); a class definition likewise records nothing.  The unreachable
`_collect_function` would have recorded both (third conjunct), and the
collector does record assignment bindings (fourth conjunct), so the omission
is specific to the early return. -/
theorem symbol_collector_never_records_definitions :
    collectSymbols [.module [.functionDef "f" ⟨[], ["x"], none, [], none⟩ [.passStmt]]] =
      [([0], []), ([0, 0], [])] ∧
    collectSymbols [.module [.classDef "C" [.passStmt]]] =
      [([0], []), ([0, 0], [])] ∧
    collect_function "f" ⟨[], ["x"], none, [], none⟩
        (.functionDef "f" ⟨[], ["x"], none, [], none⟩ [.passStmt]) [0, 0] "f" [0]
        [([0], [])] =
      [([0], [("f", ⟨"f.f"⟩)]), ([0, 0], [("x", ⟨"f.x"⟩)])] ∧
    collectSymbols [.module [.assign [.tName "y"]]] =
      [([0], [("y", ⟨"y"⟩)])] := by
  refine ⟨?_, ?_, ?_, ?_⟩ <;>
    simp [collectSymbols, collectSymbols.go, collect_in_scope, scope_children,
      visit_scope_body, visit_node, visit_node_children, children, is_scope_defining,
      tabsEnsure, tabsHasKey, tabsInsert, tableSet, define_symbol, nodeFqn, nodeName?,
      collect_assignment, collect_names_from_target, collect_function, collect_parameters]

namespace FDA

/-! ## The module dependency graph: `fda/importer/graph.py`

`ModuleDependencyGraph` keeps `nodes : Dict[str, Module]` (insertion-ordered
keys), `edges`/`reverse_edges : DefaultDict[str, Set[str]]`.  A Python `set`
is embedded as a duplicate-free list in insertion order; the graphs the claims
evaluate have at most one out-neighbor per node, so `set` iteration order is
immaterial there.  The recursive DFS of `find_cycles` and the `while` loop of
`topological_sort` take an explicit fuel argument, instantiated at a bound
that the concrete evaluations never exhaust. -/

structure FdaModuleSpec where
  fqn : String
deriving Repr

/-- `fda.importer.spec.Module`, restricted to the field the graph reads
(`module.spec.fqn`). -/
structure FdaModule where
  spec : FdaModuleSpec
deriving Repr

structure ModuleDependencyGraph where
  nodes : List String
  edges : List (String × List String)
  reverse_edges : List (String × List String)
deriving Repr

namespace ModuleDependencyGraph

def empty : ModuleDependencyGraph := ⟨[], [], []⟩

/-- `set.add`: insert if absent (insertion order kept). -/
def setAdd (s : List String) (x : String) : List String :=
  if s.contains x then s else s ++ [x]

/-- `self.edges.get(node, set())`. -/
def edgesGet (edges : List (String × List String)) (k : String) : List String :=
  match edges.find? (fun e => e.1 = k) with
  | some e => e.2
  | none => []

/-- `self.edges[k].add(v)` on a `defaultdict(set)`. -/
def edgesAdd (edges : List (String × List String)) (k v : String) :
    List (String × List String) :=
  if edges.any (fun e => e.1 = k) then
    edges.map (fun e => if e.1 = k then (k, setAdd e.2 v) else e)
  else
    edges ++ [(k, [v])]

/-- `add_node`: `self.nodes[module.spec.fqn] = module` (re-registration
replaces the value, the key keeps its position). -/
def add_node (g : ModuleDependencyGraph) (module : FdaModule) : ModuleDependencyGraph :=
  if g.nodes.contains module.spec.fqn then g
  else { g with nodes := g.nodes ++ [module.spec.fqn] }

/-- `add_dependency`: record the edge in both adjacency maps.  No self-edge
check and no node creation. -/
def add_dependency (g : ModuleDependencyGraph) (from_module to_module : String) :
    ModuleDependencyGraph :=
  { g with
    edges := edgesAdd g.edges from_module to_module
    reverse_edges := edgesAdd g.reverse_edges to_module from_module }

/-- `path.index(neighbor)`: first index (total; the absent case is never
reached because the neighbor was just found in `rec_stack`, hence on the
path). -/
def listIndex (l : List String) (x : String) : Nat :=
  match l with
  | [] => 0
  | y :: rest => if y = x then 0 else 1 + listIndex rest x

/-- The mutable state of `find_cycles`: `visited`, `rec_stack`, `path`,
`cycles`. -/
structure DfsState where
  visited : List String
  rec_stack : List String
  path : List String
  cycles : List (List String)
deriving Repr

/-- The inner `dfs` of `find_cycles`.  The neighbor loop with its early
`return True` is a fold threading a done-flag; after a `True` return nothing
else mutates the state, so the fold is observationally the loop. -/
def dfs (g : ModuleDependencyGraph) : Nat → String → DfsState → Bool × DfsState
  | 0, _, st => (false, st)
  | fuel + 1, node, st =>
    let st := { st with
      visited := setAdd st.visited node
      rec_stack := setAdd st.rec_stack node
      path := st.path ++ [node] }
    let step := (edgesGet g.edges node).foldl
      (fun (acc : Bool × DfsState) neighbor =>
        match acc with
        | (true, st) => (true, st)
        | (false, st) =>
          if !st.visited.contains neighbor then
            dfs g fuel neighbor st
          else if st.rec_stack.contains neighbor then
            let cycle_start := listIndex st.path neighbor
            (true, { st with cycles := st.cycles ++ [st.path.drop cycle_start ++ [neighbor]] })
          else
            (false, st))
      (false, st)
    match step with
    | (true, st) => (true, st)
    | (false, st) =>
      (false, { st with
        path := st.path.dropLast
        rec_stack := st.rec_stack.filter (fun x => x ≠ node) })

/-- Fuel bound for `dfs`: nested calls happen only on nodes not yet visited,
so the depth never exceeds the number of distinct node names occurring in the
graph. -/
def dfsFuel (g : ModuleDependencyGraph) : Nat :=
  g.nodes.length + g.edges.foldl (fun a e => a + e.2.length) 0 + 1

/-- `find_cycles`: `for node in self.nodes: if node not in visited: dfs(node)`,
returning the accumulated cycles. -/
def find_cycles (g : ModuleDependencyGraph) : List (List String) :=
  (g.nodes.foldl
    (fun (st : DfsState) node =>
      if st.visited.contains node then st else (dfs g (dfsFuel g) node st).2)
    (⟨[], [], [], []⟩ : DfsState)).cycles

/-- Association-list view of `in_degree : Dict[str, int]` (Python degrees can
go negative, hence `Int`). -/
def degGet (d : List (String × Int)) (k : String) : Int :=
  match d.find? (fun e => e.1 = k) with
  | some e => e.2
  | none => 0

def degHas (d : List (String × Int)) (k : String) : Bool :=
  d.any (fun e => e.1 = k)

def degSet (d : List (String × Int)) (k : String) (v : Int) : List (String × Int) :=
  d.map (fun e => if e.1 = k then (k, v) else e)

/-- The `while queue:` loop of `topological_sort`, fuelled. -/
def topoLoop (g : ModuleDependencyGraph) :
    Nat → List String → List String → List (String × Int) → List String
  | 0, _, sorted_nodes, _ => sorted_nodes
  | _ + 1, [], sorted_nodes, _ => sorted_nodes
  | fuel + 1, node :: queue, sorted_nodes, in_degree =>
    let sorted_nodes := sorted_nodes ++ [node]
    let step := (edgesGet g.edges node).foldl
      (fun (acc : List String × List (String × Int)) neighbor =>
        let (queue, in_degree) := acc
        if degHas in_degree neighbor then
          let in_degree := degSet in_degree neighbor (degGet in_degree neighbor - 1)
          if degGet in_degree neighbor = 0 then (queue ++ [neighbor], in_degree)
          else (queue, in_degree)
        else (queue, in_degree))
      (queue, in_degree)
    topoLoop g fuel step.1 sorted_nodes step.2

/-- `topological_sort`: Kahn's algorithm exactly as in the source. -/
def topological_sort (g : ModuleDependencyGraph) : List String :=
  let in_degree := g.nodes.map (fun node => (node, (0 : Int)))
  let in_degree := g.nodes.foldl
    (fun in_degree node =>
      (edgesGet g.edges node).foldl
        (fun in_degree neighbor =>
          if degHas in_degree neighbor then
            degSet in_degree neighbor (degGet in_degree neighbor + 1)
          else in_degree)
        in_degree)
    in_degree
  let queue := (in_degree.filter (fun e => e.2 = 0)).map (fun e => e.1)
  topoLoop g (2 * g.nodes.length + 2) queue [] in_degree

end ModuleDependencyGraph

end FDA

open FDA.ModuleDependencyGraph in
/-- **C7.** On the graph with exactly the edges a→b, b→c, c→a, `find_cycles`
reports exactly the cycle path `[a, b, c, a]`; on the single self-edge a→a it
reports `[a, a]`; on the acyclic a→b, b→c it reports no cycles and
`topological_sort` returns `[a, b, c]` (a before b before c). -/
theorem cycle_detection_and_topological_sort :
    find_cycles
        ((((((empty.add_node ⟨⟨"a"⟩⟩).add_node ⟨⟨"b"⟩⟩).add_node
            ⟨⟨"c"⟩⟩).add_dependency "a" "b").add_dependency "b" "c").add_dependency "c" "a") =
      [["a", "b", "c", "a"]] ∧
    find_cycles ((empty.add_node ⟨⟨"a"⟩⟩).add_dependency "a" "a") = [["a", "a"]] ∧
    find_cycles
        (((((empty.add_node ⟨⟨"a"⟩⟩).add_node ⟨⟨"b"⟩⟩).add_node
            ⟨⟨"c"⟩⟩).add_dependency "a" "b").add_dependency "b" "c") = [] ∧
    topological_sort
        (((((empty.add_node ⟨⟨"a"⟩⟩).add_node ⟨⟨"b"⟩⟩).add_node
            ⟨⟨"c"⟩⟩).add_dependency "a" "b").add_dependency "b" "c") =
      ["a", "b", "c"] := by
  refine ⟨rfl, rfl, rfl, rfl⟩

namespace FDA

/-! ## The deduplicating graph base class: `pydepgraph/graph/base.py`

`BaseGraph` wraps a `networkx.DiGraph`; the wrapped state observable through
`has_node`/`has_edge`/`add_node`/`add_edge` is the node list and edge list
(`nx.DiGraph.add_edge` inserts one arc per ordered pair). -/

structure BaseGraph where
  nodes : List String
  edges : List (String × String)
deriving Repr

namespace BaseGraph

def emptyGraph : BaseGraph := ⟨[], []⟩

def has_node (g : BaseGraph) (module : String) : Bool :=
  g.nodes.contains module

def has_edge (g : BaseGraph) (from_module to_module : String) : Bool :=
  g.edges.contains (from_module, to_module)

/-- `add_node`: insert the node unless present. -/
def add_node (g : BaseGraph) (module : String) : BaseGraph :=
  if g.has_node module then g else { g with nodes := g.nodes ++ [module] }

/-- `add_edge`: reject self-edges and duplicate edges; otherwise ensure both
endpoints and insert the arc. -/
def add_edge (g : BaseGraph) (from_module to_module : String) : BaseGraph :=
  if from_module ≠ to_module ∧ ¬g.has_edge from_module to_module then
    let g := g.add_node from_module
    let g := g.add_node to_module
    { g with edges := g.edges ++ [(from_module, to_module)] }
  else g

/-- One node-add or edge-add operation on the graph. -/
inductive GraphOp where
  | opAddNode (module : String)
  | opAddEdge (from_module to_module : String)
deriving Repr

def applyOp (g : BaseGraph) : GraphOp → BaseGraph
  | .opAddNode m => g.add_node m
  | .opAddEdge a b => g.add_edge a b

def applyOps (ops : List GraphOp) : BaseGraph :=
  ops.foldl applyOp emptyGraph

/-- The C8 invariant: deduplicated nodes, deduplicated edges, no self-arc. -/
def Invariant (g : BaseGraph) : Prop :=
  g.nodes.Nodup ∧ g.edges.Nodup ∧ ∀ a, (a, a) ∉ g.edges

theorem invariant_empty : Invariant emptyGraph := by
  refine ⟨List.nodup_nil, List.nodup_nil, ?_⟩
  intro a h
  exact absurd h (List.not_mem_nil _)

theorem invariant_add_node (g : BaseGraph) (m : String) (h : Invariant g) :
    Invariant (g.add_node m) := by
  obtain ⟨hn, he, hs⟩ := h
  unfold add_node has_node
  split
  · exact ⟨hn, he, hs⟩
  · next hmem =>
    have hm : m ∉ g.nodes := by simpa using hmem
    refine ⟨?_, he, hs⟩
    rw [List.nodup_append]
    refine ⟨hn, List.nodup_singleton m, ?_⟩
    intro x hx hxm
    rw [List.mem_singleton] at hxm
    subst hxm
    exact hm hx

theorem edges_add_node (g : BaseGraph) (m : String) :
    (g.add_node m).edges = g.edges := by
  unfold add_node
  split <;> rfl

theorem invariant_add_both_endpoints (g : BaseGraph) (a b : String) (h : Invariant g) :
    Invariant ((g.add_node a).add_node b) :=
  invariant_add_node _ b (invariant_add_node g a h)

theorem invariant_add_edge (g : BaseGraph) (a b : String) (h : Invariant g) :
    Invariant (g.add_edge a b) := by
  by_cases hcond : a ≠ b ∧ ¬g.has_edge a b = true
  · have hrw : g.add_edge a b =
        { nodes := ((g.add_node a).add_node b).nodes,
          edges := ((g.add_node a).add_node b).edges ++ [(a, b)] } := by
      simp only [add_edge, if_pos hcond]
    obtain ⟨hab, hnew⟩ := hcond
    have hinv2 := invariant_add_both_endpoints g a b h
    have hedges : ((g.add_node a).add_node b).edges = g.edges := by
      rw [edges_add_node, edges_add_node]
    rw [hrw]
    refine ⟨hinv2.1, ?_, ?_⟩
    · rw [hedges, List.nodup_append]
      refine ⟨h.2.1, List.nodup_singleton _, ?_⟩
      intro x hx hxe
      rw [List.mem_singleton] at hxe
      subst hxe
      exact hnew (by simpa [has_edge] using hx)
    · intro c
      rw [hedges]
      simp only [List.mem_append, List.mem_singleton]
      rintro (hc | hc)
      · exact h.2.2 c hc
      · have h1 : c = a := congrArg Prod.fst hc
        have h2 : c = b := congrArg Prod.snd hc
        exact hab (h1.symm.trans h2)
  · have hrw : g.add_edge a b = g := by
      simp only [add_edge, if_neg hcond]
    rw [hrw]
    exact h

end BaseGraph

end FDA

namespace FDA

namespace ModuleDependencyGraph

theorem setAdd_idem (s : List String) (v : String) : setAdd (setAdd s v) v = setAdd s v := by
  unfold setAdd
  by_cases h : s.contains v
  · rw [if_pos h, if_pos h]
  · rw [if_neg h]
    have hmem : (s ++ [v]).contains v = true := by simp
    rw [if_pos hmem]

theorem edgesAdd_key_preserved (k v : String) (en : String × List String) :
    (if en.1 = k then (k, setAdd en.2 v) else en).1 = en.1 := by
  split
  · next h => exact h.symm
  · rfl

/-- Inserting the same dependency twice into an adjacency map is the same as
inserting it once. -/
theorem edgesAdd_idem (e : List (String × List String)) (k v : String) :
    edgesAdd (edgesAdd e k v) k v = edgesAdd e k v := by
  by_cases hk : e.any (fun en => en.1 = k)
  · have h1 : edgesAdd e k v = e.map (fun en => if en.1 = k then (k, setAdd en.2 v) else en) := by
      simp only [edgesAdd, if_pos hk]
    have hany : (e.map (fun en => if en.1 = k then (k, setAdd en.2 v) else en)).any
        (fun en => en.1 = k) := by
      rw [List.any_map]
      have hpt : ∀ en : String × List String,
          ((fun en => decide (en.1 = k)) ∘
            (fun en => if en.1 = k then (k, setAdd en.2 v) else en)) en
            = decide (en.1 = k) := by
        intro en
        simp only [Function.comp]
        rw [edgesAdd_key_preserved]
      rw [funext hpt]
      exact hk
    rw [h1]
    simp only [edgesAdd, if_pos hany]
    rw [List.map_map]
    apply List.map_congr_left
    intro en _
    simp only [Function.comp]
    by_cases he : en.1 = k
    · simp [he, setAdd_idem]
    · simp [he]
  · have h1 : edgesAdd e k v = e ++ [(k, [v])] := by
      simp only [edgesAdd, if_neg hk]
    have hany : (e ++ [(k, [v])]).any (fun en => en.1 = k) := by
      simp
    rw [h1]
    simp only [edgesAdd, if_pos hany]
    rw [List.map_append]
    have hmape : e.map (fun en => if en.1 = k then (k, setAdd en.2 v) else en) = e := by
      have hcongr := List.map_congr_left (l := e)
        (f := fun en => if en.1 = k then (k, setAdd en.2 v) else en) (g := id) ?_
      · simpa using hcongr
      · intro en hen
        have hne : ¬ en.1 = k := by
          intro hc
          exact hk (List.any_eq_true.mpr ⟨en, hen, by simp [hc]⟩)
        simp [hne]
    rw [hmape]
    simp [setAdd]

/-- Registering the same module twice adds one node. -/
theorem add_node_idem (g : ModuleDependencyGraph) (m : FdaModule) :
    (g.add_node m).add_node m = g.add_node m := by
  unfold add_node
  by_cases h : g.nodes.contains m.spec.fqn
  · rw [if_pos h, if_pos h]
  · rw [if_neg h]
    have hmem : (g.nodes ++ [m.spec.fqn]).contains m.spec.fqn = true := by simp
    simp only [if_pos hmem]

/-- Recording the same dependency twice adds one edge per direction. -/
theorem add_dependency_idem (g : ModuleDependencyGraph) (a b : String) :
    (g.add_dependency a b).add_dependency a b = g.add_dependency a b := by
  simp only [add_dependency]
  rw [edgesAdd_idem, edgesAdd_idem]

end ModuleDependencyGraph

namespace BaseGraph

/-- The C8 invariant holds after any operation sequence on the empty graph. -/
theorem invariant_applyOps (ops : List GraphOp) : Invariant (applyOps ops) := by
  have hstep : ∀ g, Invariant g → Invariant (ops.foldl applyOp g) := by
    induction ops with
    | nil => intro g h; exact h
    | cons op rest ih =>
      intro g h
      refine ih _ ?_
      cases op with
      | opAddNode m => exact invariant_add_node g m h
      | opAddEdge a b => exact invariant_add_edge g a b h
  exact hstep emptyGraph invariant_empty

end BaseGraph

end FDA

open FDA.ModuleDependencyGraph in
/-- **C8 (counterexample).** The claim asserts that no sequence of node-add
and edge-add operations leaves a self-edge in the dependency graph.  On
`ModuleDependencyGraph` (the graph the import analyzer populates via
`add_dependency`) this is false: registering module `a` and recording the
self-dependency a→a leaves the edge a→a in the adjacency map —
`add_dependency` checks nothing.  (`find_cycles` in fact relies on this,
reporting `[a, a]` for a self-import.) -/
theorem self_edge_not_rejected_counterexample :
    edgesGet ((empty.add_node ⟨⟨"a"⟩⟩).add_dependency "a" "a").edges "a" = ["a"] ∧
    "a" ∈ edgesGet ((empty.add_node ⟨⟨"a"⟩⟩).add_dependency "a" "a").edges "a" := by
  refine ⟨rfl, ?_⟩
  rw [show edgesGet ((empty.add_node ⟨⟨"a"⟩⟩).add_dependency "a" "a").edges "a" = ["a"] from rfl]
  exact List.mem_singleton_self "a"

open FDA.BaseGraph FDA.ModuleDependencyGraph in
/-- **C8 (amended).** On `BaseGraph` (pydepgraph), every sequence of
node-add/edge-add operations maintains deduplicated nodes, at most one edge
per ordered (source, target) pair, and no self-edge.  On
`ModuleDependencyGraph` (fda), re-registering a module and re-recording a
dependency are idempotent — N import paths to one already-resolved target
yield exactly one node and at most one edge per ordered pair — but
self-edges are *not* rejected there. -/
theorem graph_dedup_and_self_edge_policy
    (ops : List GraphOp) (g : ModuleDependencyGraph) (m : FdaModule) (a b : String) :
    ((applyOps ops).nodes.Nodup ∧ (applyOps ops).edges.Nodup ∧
      ∀ c, (c, c) ∉ (applyOps ops).edges) ∧
    (g.add_node m).add_node m = g.add_node m ∧
    (g.add_dependency a b).add_dependency a b = g.add_dependency a b :=
  ⟨invariant_applyOps ops, add_node_idem g m, add_dependency_idem g a b⟩

namespace FDA

/-! ## The module resolver: `fda/importer/resolver.py` and
`pda/specification/modules/module/unavailable.py`

`importlib.util.find_spec` is the external module locator; its observable
outcomes are a spec, `None`, or one of the exception kinds the resolver
handles. -/

inductive PyExc where
  | moduleNotFoundError
  | valueError
  | importError
  | attributeError
  | keyError
  | indexError
  | pdaImportPathError
deriving DecidableEq, Repr

/-- Outcome of `importlib.util.find_spec(module_name)`. -/
inductive FindSpecOutcome where
  | found (origin : Option String) (submodule_search_locations : Option (List String))
  | absent
  | raises (e : PyExc)
deriving Repr

/-- `fda.importer.spec.ModuleSpec`, the resolver's result record. -/
structure ModuleSpecE where
  fqn : String
  origin : Option String
  is_package : Bool
  submodule_search_locations : List String
deriving DecidableEq, Repr

/-- The exception kinds caught by `resolve_module_spec`'s
`except (ModuleNotFoundError, ValueError, ImportError)`. -/
def caughtByResolver : PyExc → Bool
  | .moduleNotFoundError => true
  | .valueError => true
  | .importError => true
  | _ => false

/-- `ImportResolver.resolve_module_spec`: `None` for an absent module or a
caught lookup exception; any other exception propagates (`.error`).  The
`origin`/`submodule_search_locations` conversions follow Python truthiness
(`Path(spec.origin) if spec.origin else None`; empty list ⇒ `[]`,
`is_package = spec.submodule_search_locations is not None`). -/
def resolve_module_spec (module_name : String) (outcome : FindSpecOutcome) :
    Except PyExc (Option ModuleSpecE) :=
  match outcome with
  | .raises e => if caughtByResolver e then .ok none else .error e
  | .absent => .ok none
  | .found origin locs =>
    .ok (some
      { fqn := module_name
        origin :=
          match origin with
          | some o => if o ≠ "" then some o else none
          | none => none
        is_package := locs.isSome
        submodule_search_locations :=
          match locs with
          | some ls => ls
          | none => [] })

/-- `pda.specification.ModuleCategory`. -/
inductive ModuleCategory where
  | LOCAL
  | STDLIB
  | EXTERNAL
  | UNAVAILABLE
deriving DecidableEq, Repr

/-- `pda.specification.UnavailableModule`: name, optional package, optional
causing exception. -/
structure UnavailableModule where
  name : String
  package : Option String
  error : Option PyExc
deriving DecidableEq, Repr

/-- `UnavailableModule.validate_module` (pydantic `model_validator`): an empty
name, or a provided-but-empty package, raises `PDAMissingModuleNameError`;
otherwise the instance is returned. -/
def UnavailableModule.mk_validated (name : String) (package : Option String)
    (error : Option PyExc) : Except String UnavailableModule :=
  if name = "" then .error "Module name cannot be empty"
  else if package = some "" then .error "Package name cannot be empty if provided"
  else .ok ⟨name, package, error⟩

/-- `UnavailableModule.get_category` always reports `UNAVAILABLE`. -/
def UnavailableModule.get_category (_ : UnavailableModule) : ModuleCategory :=
  ModuleCategory.UNAVAILABLE

/-- A resolved-and-categorized module as exposed to the graph; only the
degraded (unavailable) shape is needed here. -/
structure CategorizedUnavailable where
  module : UnavailableModule
  category : ModuleCategory
deriving DecidableEq, Repr

/-- The failure modes of a module lookup, per the spec's resolver contract. -/
inductive LookupFailure where
  | lookupAbsent
  | malformedField (e : PyExc)
deriving Repr

def failureCause : LookupFailure → Option PyExc
  | .lookupAbsent => none
  | .malformedField e => some e

/-- Modelled from the spec: `ModuleResolver.resolve_to_module` of
`pda/analyzer/imports/resolver.py` is absent from `src/` (only its tests and
the `UnavailableModule` specification are present).  Spec §4.5:
"**Unavailable** if lookup fails or any expected field of a successful lookup
is missing/malformed — never propagate the failure as an exception, always
degrade, carrying the attempted name and cause".  The failing paths build an
`UnavailableModule` (through its validator) categorized `UNAVAILABLE`. -/
def resolve_to_module_failure (attempted_name : String) (package : Option String)
    (failure : LookupFailure) : Except String CategorizedUnavailable := do
  let module ← UnavailableModule.mk_validated attempted_name package (failureCause failure)
  .ok ⟨module, ModuleCategory.UNAVAILABLE⟩

end FDA

/-- **C9.** A failed module lookup is always degraded, never propagated: the
fda resolver returns `None` (wrapped `.ok`) for an absent module and for
every caught lookup exception, and the (spec-modelled) pda resolver wraps any
lookup failure into an `UnavailableModule` carrying the attempted name and
the failure cause, categorized `UNAVAILABLE`. -/
theorem resolver_degrades_lookup_failures
    (module_name : String) (e : PyExc) (package : Option String)
    (failure : LookupFailure)
    (hcaught : caughtByResolver e = true)
    (hname : module_name ≠ "")
    (hpkg : package ≠ some "") :
    resolve_module_spec module_name (.raises e) = .ok none ∧
    resolve_module_spec module_name .absent = .ok none ∧
    resolve_to_module_failure module_name package failure =
      .ok ⟨⟨module_name, package, failureCause failure⟩, ModuleCategory.UNAVAILABLE⟩ := by
  refine ⟨?_, rfl, ?_⟩
  · simp [resolve_module_spec, hcaught]
  · simp [resolve_to_module_failure, UnavailableModule.mk_validated, hname, hpkg,
      Except.bind, bind]

/-- Witness for C9: looking up `missing_mod` with a raised
`ModuleNotFoundError` and, on the pda side, an `AttributeError` while reading
a lookup field. -/
theorem resolver_degrades_lookup_failures_witness :
    resolve_module_spec "missing_mod" (.raises .moduleNotFoundError) = .ok none ∧
    resolve_module_spec "missing_mod" .absent = .ok none ∧
    resolve_to_module_failure "missing_mod" none (.malformedField .attributeError) =
      .ok ⟨⟨"missing_mod", none, some .attributeError⟩, ModuleCategory.UNAVAILABLE⟩ :=
  resolver_degrades_lookup_failures "missing_mod" .moduleNotFoundError none
    (.malformedField .attributeError) rfl (by simp) (by simp)
